import Mathlib

/-!
Verification of the jira-client library against its design specification.

The development shallowly embeds the Python sources:
* `issues_api.py` — the paginated fetch engine `fetch_all` with dedup,
  limit and overscan-restart bookkeeping, and the two single-issue lookups;
* `errors.py` — the text-pattern error discriminators;
* `users_api.py` — the user lookup;
* `domain_alignment.py` — the self-URL realignment;
* `credentials.py` — the layered credentials resolution.

The remote client is modelled as an oracle: the k-th `search_issues` call
returns `oracle k`, so arbitrary (even inconsistent, concurrently mutated)
server behaviour is quantified over.  The generator loop runs on explicit
fuel (one unit per page request); a run records the yielded issues, the
offsets of the page requests it performed, and whether it reached its own
termination condition within the fuel.
-/

namespace JiraClient

/-- A Jira issue record: dedup in `fetch_all` is by `id` only, so a payload
field is kept to distinguish records that share an identifier. -/
structure Issue where
  id : Nat
  payload : Nat
deriving DecidableEq

/-- One page returned by the remote search: the records plus the server's
current total-count estimate (`results.total`). -/
structure Page where
  records : List Issue
  total : Nat
deriving DecidableEq

/-- Result of processing the records of one page (the inner `for issue in
results` loop of `fetch_all`): records yielded from this page in order, the
updated `issue_ids` set, the updated `item_count`, and whether the
`item_count > limit` early return fired. -/
structure PageOut where
  ys : List Issue
  seen : List Nat
  cnt : Nat
  halt : Bool
deriving DecidableEq

/-- The body of `for issue in results:` in `fetch_all`: skip ids already in
`issue_ids`; otherwise increment `item_count`, return early when a nonzero
`limit` is exceeded, else record the id and yield the issue. -/
def process_page (limit : Nat) : List Issue → List Nat → Nat → PageOut
  | [], seen, cnt => ⟨[], seen, cnt, false⟩
  | r :: rest, seen, cnt =>
    if r.id ∈ seen then
      process_page limit rest seen cnt
    else if limit ≠ 0 ∧ cnt + 1 > limit then
      ⟨[], seen, cnt + 1, true⟩
    else
      match process_page limit rest (r.id :: seen) (cnt + 1) with
      | ⟨ys, seen2, cnt2, halt2⟩ => ⟨r :: ys, seen2, cnt2, halt2⟩

/-- The mutable loop variables of one `fetch_all` invocation. -/
structure FetchState where
  startAt : Nat
  itemCount : Nat
  seenIds : List Nat
  knownTotal : Option Nat
  forceRestart : Bool
deriving DecidableEq

/-- Outcome of one `while` iteration: continue with a new state, or stop
(either the early `return` on reaching the limit, or `done = True`). -/
inductive StepOut where
  | next (st : FetchState)
  | stop
deriving DecidableEq

/-- The value the `total` variable holds after the `if total is None`
update at the top of the loop body: the first page records it, later pages
never overwrite it. -/
def known_total_after (st : FetchState) (page : Page) : Nat :=
  match st.knownTotal with
  | none => page.total
  | some t => t

/-- The value of `force_restart` after the total-change check: with
overscan on, a page whose total differs from the recorded one marks a
restart as pending; the flag is sticky until consumed. -/
def force_restart_after (overscan : Bool) (st : FetchState) (page : Page) : Bool :=
  match st.knownTotal with
  | none => st.forceRestart
  | some t => st.forceRestart || (overscan && page.total != t)

/-- One iteration of the `while not done` loop of `fetch_all`, minus the
record yielding (the yielded records of the iteration are
`(process_page ...).ys`): early return on the limit, otherwise advance
`start_at` by the page size and either keep scanning, restart from offset 0
(clearing `total` and `force_restart` but not `issue_ids`), or finish. -/
def fetch_step (page_size limit : Nat) (overscan : Bool) (st : FetchState) (page : Page) :
    StepOut :=
  match process_page limit page.records st.seenIds st.itemCount with
  | ⟨_, seen2, cnt2, halt2⟩ =>
    if halt2 then
      StepOut.stop
    else if known_total_after st page < st.startAt + page_size then
      if force_restart_after overscan st page then
        StepOut.next ⟨0, cnt2, seen2, none, false⟩
      else
        StepOut.stop
    else
      StepOut.next ⟨st.startAt + page_size, cnt2, seen2,
        some (known_total_after st page), force_restart_after overscan st page⟩

/-- Observable outcome of (a prefix of) one `fetch_all` invocation: the
issues yielded, the `startAt` offsets of the `search_issues` calls
performed, and whether the generator itself finished within the fuel. -/
structure RunOut where
  ys : List Issue
  offsets : List Nat
  finished : Bool
deriving DecidableEq

/-- The `while not done` loop of `fetch_all`, driven by fuel; the k-th page
request returns `oracle k`. -/
def fetch_all_loop (oracle : Nat → Page) (page_size limit : Nat) (overscan : Bool) :
    Nat → Nat → FetchState → RunOut
  | 0, _, _ => ⟨[], [], false⟩
  | fuel + 1, k, st =>
    match fetch_step page_size limit overscan st (oracle k) with
    | StepOut.stop =>
      ⟨(process_page limit (oracle k).records st.seenIds st.itemCount).ys,
        [st.startAt], true⟩
    | StepOut.next st2 =>
      match fetch_all_loop oracle page_size limit overscan fuel (k + 1) st2 with
      | ⟨ys2, offs2, fin2⟩ =>
        ⟨(process_page limit (oracle k).records st.seenIds st.itemCount).ys ++ ys2,
          st.startAt :: offs2, fin2⟩

/-- `fetch_all` started from its initial state: offset 0, zero items
yielded, empty `issue_ids`, no recorded total, no pending restart. -/
def fetch_all (oracle : Nat → Page) (page_size limit : Nat) (overscan : Bool)
    (fuel : Nat) : RunOut :=
  fetch_all_loop oracle page_size limit overscan fuel 0 ⟨0, 0, [], none, false⟩

/-! Equation lemmas for the per-page record processing. -/

/-- Records whose id was already seen are skipped. -/
lemma process_page_cons_mem (limit : Nat) (r : Issue) (rest : List Issue)
    (seen : List Nat) (cnt : Nat) (h : r.id ∈ seen) :
    process_page limit (r :: rest) seen cnt = process_page limit rest seen cnt := by
  simp [process_page, h]

/-- A fresh record beyond a nonzero limit fires the early return without
being yielded and without entering `issue_ids`. -/
lemma process_page_cons_trip (limit : Nat) (r : Issue) (rest : List Issue)
    (seen : List Nat) (cnt : Nat) (h1 : r.id ∉ seen) (h2 : limit ≠ 0 ∧ cnt + 1 > limit) :
    process_page limit (r :: rest) seen cnt = ⟨[], seen, cnt + 1, true⟩ := by
  simp [process_page, h1, h2]

/-- A fresh record within the limit is yielded first, then the rest of the
page is processed with the id recorded. -/
lemma process_page_cons_go (limit : Nat) (r : Issue) (rest : List Issue)
    (seen : List Nat) (cnt : Nat) (h1 : r.id ∉ seen) (h2 : ¬ (limit ≠ 0 ∧ cnt + 1 > limit)) :
    process_page limit (r :: rest) seen cnt =
      ⟨r :: (process_page limit rest (r.id :: seen) (cnt + 1)).ys,
        (process_page limit rest (r.id :: seen) (cnt + 1)).seen,
        (process_page limit rest (r.id :: seen) (cnt + 1)).cnt,
        (process_page limit rest (r.id :: seen) (cnt + 1)).halt⟩ := by
  simp only [process_page, if_neg h1, if_neg h2]

/-! Invariants of the per-page record processing. -/

/-- Processing one page never yields a record whose id was already seen,
yields pairwise distinct ids, and grows `issue_ids` by exactly the ids it
yielded. -/
lemma process_page_spec (limit : Nat) (recs : List Issue) :
    ∀ seen cnt,
      (((process_page limit recs seen cnt).ys).map Issue.id).Nodup ∧
      (∀ a, a ∈ ((process_page limit recs seen cnt).ys).map Issue.id → a ∉ seen) ∧
      (∀ a, a ∈ (process_page limit recs seen cnt).seen ↔
        a ∈ seen ∨ a ∈ ((process_page limit recs seen cnt).ys).map Issue.id) := by
  induction recs with
  | nil =>
    intro seen cnt
    simp [process_page]
  | cons r rest ih =>
    intro seen cnt
    by_cases hmem : r.id ∈ seen
    · simpa [process_page, hmem] using ih seen cnt
    · by_cases htrip : limit ≠ 0 ∧ cnt + 1 > limit
      · simp [process_page, hmem, htrip]
      · obtain ⟨hnd, hfr, hiff⟩ := ih (r.id :: seen) (cnt + 1)
        rcases hpp : process_page limit rest (r.id :: seen) (cnt + 1) with ⟨ys, seen2, cnt2, halt2⟩
        rw [hpp] at hnd hfr hiff
        simp only [process_page, if_neg hmem, if_neg htrip, hpp]
        refine ⟨?_, ?_, ?_⟩
        · simp only [List.map_cons, List.nodup_cons]
          exact ⟨fun hc => hfr _ hc (by simp), hnd⟩
        · intro a ha
          rcases (by simpa using ha : a = r.id ∨ a ∈ ys.map Issue.id) with rfl | ha2
          · exact hmem
          · intro hseen
            exact hfr a ha2 (List.mem_cons_of_mem _ hseen)
        · intro a
          rw [hiff a]
          simp only [List.mem_cons, List.map_cons]
          tauto

/-- `issue_ids` only grows while a page is processed. -/
lemma process_page_seen_mono (limit : Nat) (recs : List Issue) (seen : List Nat)
    (cnt : Nat) (a : Nat) (ha : a ∈ seen) :
    a ∈ (process_page limit recs seen cnt).seen :=
  ((process_page_spec limit recs seen cnt).2.2 a).mpr (Or.inl ha)

/-- With `limit = 0` the early return never fires and `item_count` advances
by exactly the number of records yielded from the page. -/
lemma process_page_zero (recs : List Issue) :
    ∀ seen cnt,
      (process_page 0 recs seen cnt).halt = false ∧
      (process_page 0 recs seen cnt).cnt = cnt + ((process_page 0 recs seen cnt).ys).length := by
  induction recs with
  | nil =>
    intro seen cnt
    simp [process_page]
  | cons r rest ih =>
    intro seen cnt
    by_cases hmem : r.id ∈ seen
    · simpa [process_page, hmem] using ih seen cnt
    · obtain ⟨h1, h2⟩ := ih (r.id :: seen) (cnt + 1)
      rcases hpp : process_page 0 rest (r.id :: seen) (cnt + 1) with ⟨ys, seen2, cnt2, halt2⟩
      rw [hpp] at h1 h2
      simp only [process_page, if_neg hmem, hpp]
      simp_all [Nat.add_comm, Nat.add_assoc, Nat.add_left_comm]

/-! Characterizations of one loop iteration. -/

/-- When the limit check fires mid-page, the iteration returns at once. -/
lemma fetch_step_halt (page_size limit : Nat) (overscan : Bool) (st : FetchState)
    (page : Page) (h : (process_page limit page.records st.seenIds st.itemCount).halt = true) :
    fetch_step page_size limit overscan st page = StepOut.stop := by
  unfold fetch_step
  rcases hpp : process_page limit page.records st.seenIds st.itemCount with ⟨ys, s2, c2, h2⟩
  rw [hpp] at h
  simp_all

/-- The control decision of an iteration depends on the limit only through
the page processing: if that agrees with the unlimited processing, so does
the whole step. -/
lemma fetch_step_congr (page_size limit : Nat) (overscan : Bool) (st : FetchState)
    (page : Page)
    (h : process_page limit page.records st.seenIds st.itemCount
       = process_page 0 page.records st.seenIds st.itemCount) :
    fetch_step page_size limit overscan st page = fetch_step page_size 0 overscan st page := by
  unfold fetch_step
  rw [h]

/-- A continuing iteration hands the updated `issue_ids` and `item_count`
of the processed page to the next state. -/
lemma fetch_step_next (page_size limit : Nat) (overscan : Bool) (st st2 : FetchState)
    (page : Page) (h : fetch_step page_size limit overscan st page = StepOut.next st2) :
    st2.seenIds = (process_page limit page.records st.seenIds st.itemCount).seen ∧
    st2.itemCount = (process_page limit page.records st.seenIds st.itemCount).cnt := by
  unfold fetch_step at h
  rcases hpp : process_page limit page.records st.seenIds st.itemCount with ⟨ys, s2, c2, h2⟩
  rw [hpp] at h
  simp only at h
  split_ifs at h <;> simp_all <;> exact ⟨(congrArg FetchState.seenIds h.symm),
    (congrArg FetchState.itemCount h.symm)⟩

/-- Within one invocation no id is ever yielded twice, whatever the pages,
page size, limit and overscan flag: all ids yielded by the remaining run
are fresh for the current `issue_ids`, and pairwise distinct. -/
lemma fetch_all_loop_nodup (oracle : Nat → Page) (page_size limit : Nat) (overscan : Bool) :
    ∀ fuel k st,
      (((fetch_all_loop oracle page_size limit overscan fuel k st).ys).map Issue.id).Nodup ∧
      (∀ a, a ∈ ((fetch_all_loop oracle page_size limit overscan fuel k st).ys).map Issue.id →
        a ∉ st.seenIds) := by
  intro fuel
  induction fuel with
  | zero =>
    intro k st
    simp [fetch_all_loop]
  | succ fuel ih =>
    intro k st
    obtain ⟨pnd, pfr, piff⟩ := process_page_spec limit (oracle k).records st.seenIds st.itemCount
    rcases hstep : fetch_step page_size limit overscan st (oracle k) with st2 | _
    · obtain ⟨hseen, _⟩ := fetch_step_next page_size limit overscan st st2 (oracle k) hstep
      obtain ⟨rnd, rfr⟩ := ih (k + 1) st2
      rcases hrun : fetch_all_loop oracle page_size limit overscan fuel (k + 1) st2
        with ⟨ys2, offs2, fin2⟩
      rw [hrun] at rnd rfr
      simp only [fetch_all_loop, hstep, hrun, List.map_append]
      have hdisj : ∀ a, a ∈ ((process_page limit (oracle k).records st.seenIds
          st.itemCount).ys).map Issue.id → a ∉ ys2.map Issue.id := by
        intro a hpa hra
        exact rfr a hra (by rw [hseen]; exact (piff a).mpr (Or.inr hpa))
      refine ⟨List.Nodup.append pnd rnd hdisj, ?_⟩
      intro a ha
      rcases List.mem_append.mp ha with hp | hr
      · exact pfr a hp
      · intro hseen0
        exact rfr a hr (by rw [hseen]; exact (piff a).mpr (Or.inl hseen0))
    · simp only [fetch_all_loop, hstep]
      exact ⟨pnd, pfr⟩

/-! Simulation of a limited run by the unlimited run. -/

/-- Processing a page under a positive limit agrees with unlimited
processing while the limit is not exhausted, and otherwise yields exactly
the records needed to reach the limit, then fires the early return. -/
lemma process_page_limit_spec (N : Nat) (hN : 0 < N) (recs : List Issue) :
    ∀ seen cnt, cnt ≤ N →
      (cnt + ((process_page 0 recs seen cnt).ys).length ≤ N →
        process_page N recs seen cnt = process_page 0 recs seen cnt) ∧
      (N < cnt + ((process_page 0 recs seen cnt).ys).length →
        (process_page N recs seen cnt).ys = ((process_page 0 recs seen cnt).ys).take (N - cnt) ∧
        (process_page N recs seen cnt).halt = true) := by
  induction recs with
  | nil =>
    intro seen cnt hcnt
    constructor
    · intro _
      simp [process_page]
    · intro habs
      simp [process_page] at habs
      omega
  | cons r rest ih =>
    intro seen cnt hcnt
    by_cases hmem : r.id ∈ seen
    · simpa [process_page_cons_mem _ _ _ _ _ hmem] using ih seen cnt hcnt
    · have htrip0 : ¬ ((0 : Nat) ≠ 0 ∧ cnt + 1 > 0) := by omega
      have hgo0 := process_page_cons_go 0 r rest seen cnt hmem htrip0
      rcases Nat.lt_or_ge cnt N with hlt | hge
      · -- the limit check cannot fire on this record
        have htripN : ¬ (N ≠ 0 ∧ cnt + 1 > N) := by omega
        have hgoN := process_page_cons_go N r rest seen cnt hmem htripN
        obtain ⟨ihA, ihB⟩ := ih (r.id :: seen) (cnt + 1) (by omega)
        constructor
        · intro hle
          rw [hgo0] at hle
          simp only [List.length_cons] at hle
          rw [hgoN, hgo0, ihA (by omega)]
        · intro hgt
          rw [hgo0] at hgt
          simp only [List.length_cons] at hgt
          obtain ⟨hys, hhalt⟩ := ihB (by omega)
          rw [hgoN, hgo0]
          have hsub : N - cnt = (N - (cnt + 1)) + 1 := by omega
          simp only [hys, hhalt, hsub, List.take_succ_cons, and_self]
      · -- cnt = N: this record trips the limit
        have hcnteq : cnt = N := by omega
        have htripN : N ≠ 0 ∧ cnt + 1 > N := by omega
        have htr := process_page_cons_trip N r rest seen cnt hmem htripN
        constructor
        · intro hle
          rw [hgo0] at hle
          simp only [List.length_cons] at hle
          omega
        · intro _
          rw [htr, hgo0, hcnteq]
          simp

/-- A run with positive limit N yields exactly the first N records of the
unlimited run on the same oracle, and performs a prefix of its page
requests. -/
lemma fetch_all_loop_limit (oracle : Nat → Page) (page_size : Nat) (overscan : Bool)
    (N : Nat) (hN : 0 < N) :
    ∀ fuel k st, st.itemCount ≤ N →
      (fetch_all_loop oracle page_size N overscan fuel k st).ys
        = ((fetch_all_loop oracle page_size 0 overscan fuel k st).ys).take (N - st.itemCount) ∧
      ∃ rest, (fetch_all_loop oracle page_size 0 overscan fuel k st).offsets
        = (fetch_all_loop oracle page_size N overscan fuel k st).offsets ++ rest := by
  intro fuel
  induction fuel with
  | zero =>
    intro k st hcnt
    exact ⟨by simp [fetch_all_loop], ⟨[], by simp [fetch_all_loop]⟩⟩
  | succ fuel ih =>
    intro k st hcnt
    obtain ⟨hz, hc0⟩ := process_page_zero (oracle k).records st.seenIds st.itemCount
    obtain ⟨hagree, htrip⟩ :=
      process_page_limit_spec N hN (oracle k).records st.seenIds st.itemCount hcnt
    rcases le_or_lt (st.itemCount +
        ((process_page 0 (oracle k).records st.seenIds st.itemCount).ys).length) N with hle | hgt
    · -- limit not reached on this page: both runs take the same step
      have hppeq := hagree hle
      have hstepeq := fetch_step_congr page_size N overscan st (oracle k) hppeq
      rcases hstep : fetch_step page_size 0 overscan st (oracle k) with st2 | _
      · obtain ⟨_, hcnt2⟩ := fetch_step_next page_size 0 overscan st st2 (oracle k) hstep
        have hcnt2le : st2.itemCount ≤ N := by rw [hcnt2, hc0]; omega
        obtain ⟨ihys, rest, ihoffs⟩ := ih (k + 1) st2 hcnt2le
        rcases hrunN : fetch_all_loop oracle page_size N overscan fuel (k + 1) st2
          with ⟨ysN, offsN, finN⟩
        rcases hrun0 : fetch_all_loop oracle page_size 0 overscan fuel (k + 1) st2
          with ⟨ys0, offs0, fin0⟩
        rw [hrunN, hrun0] at ihys ihoffs
        simp only at ihys ihoffs
        constructor
        · simp only [fetch_all_loop, hstepeq, hstep, hrunN, hrun0, hppeq]
          rw [List.take_append_eq_append_take,
            List.take_of_length_le (le_trans (le_refl _) (by omega)), ihys,
            hcnt2, hc0]
          congr 1
          congr 1
          omega
        · refine ⟨rest, ?_⟩
          simp only [fetch_all_loop, hstepeq, hstep, hrunN, hrun0]
          simp [ihoffs]
      · constructor
        · simp only [fetch_all_loop, hstepeq, hstep, hppeq]
          rw [List.take_of_length_le (by omega)]
        · exact ⟨[], by simp [fetch_all_loop, hstepeq, hstep]⟩
    · -- the limit trips inside this page: the limited run stops here
      obtain ⟨hys, hhalt⟩ := htrip hgt
      have hstepN := fetch_step_halt page_size N overscan st (oracle k) hhalt
      rcases hstep : fetch_step page_size 0 overscan st (oracle k) with st2 | _
      · rcases hrun0 : fetch_all_loop oracle page_size 0 overscan fuel (k + 1) st2
          with ⟨ys0, offs0, fin0⟩
        constructor
        · simp only [fetch_all_loop, hstepN, hstep, hrun0, hys]
          rw [List.take_append_eq_append_take]
          have : N - st.itemCount -
              ((process_page 0 (oracle k).records st.seenIds st.itemCount).ys).length = 0 := by
            omega
          rw [this]
          simp
        · exact ⟨offs0, by simp [fetch_all_loop, hstepN, hstep, hrun0]⟩
      · constructor
        · simp only [fetch_all_loop, hstepN, hstep, hys]
        · exact ⟨[], by simp [fetch_all_loop, hstepN, hstep]⟩

/-! The offset walk: progression, termination, and restarts. -/

/-- With overscan off the restart flag is never raised. -/
lemma force_restart_after_no_overscan (st : FetchState) (page : Page) :
    force_restart_after false st page = st.forceRestart := by
  unfold force_restart_after
  rcases st.knownTotal with _ | t <;> simp

/-- With overscan off and no pending restart, the page offsets of a run are
exactly `startAt, startAt + page_size, startAt + 2 * page_size, ...`: the
walk never returns to offset 0, whatever the limit, the fuel and the totals
the server reports. -/
lemma fetch_all_loop_no_overscan_offsets (oracle : Nat → Page) (page_size limit : Nat) :
    ∀ fuel k st, st.forceRestart = false →
      (fetch_all_loop oracle page_size limit false fuel k st).offsets
        = (List.range (fetch_all_loop oracle page_size limit false fuel k st).offsets.length).map
            (fun i => st.startAt + i * page_size) := by
  intro fuel
  induction fuel with
  | zero =>
    intro k st hfr
    simp [fetch_all_loop]
  | succ fuel ih =>
    intro k st hfr
    rcases hstep : fetch_step page_size limit false st (oracle k) with st2 | _
    · -- the step cannot be a restart, so it advances the offset by the page size
      have hst2 : st2 = ⟨st.startAt + page_size,
          (process_page limit (oracle k).records st.seenIds st.itemCount).cnt,
          (process_page limit (oracle k).records st.seenIds st.itemCount).seen,
          some (known_total_after st (oracle k)), st.forceRestart⟩ := by
        unfold fetch_step at hstep
        rcases hpp : process_page limit (oracle k).records st.seenIds st.itemCount
          with ⟨ys, s2, c2, h2⟩
        rw [hpp] at hstep
        simp only [force_restart_after_no_overscan, hfr] at hstep
        split_ifs at hstep <;> simp_all
      rcases hrun : fetch_all_loop oracle page_size limit false fuel (k + 1) st2
        with ⟨ys2, offs2, fin2⟩
      have ihh := ih (k + 1) st2 (by rw [hst2]; exact hfr)
      rw [hrun] at ihh
      simp only at ihh
      simp only [fetch_all_loop, hstep, hrun]
      simp only [List.length_cons, List.range_succ_eq_map, List.map_cons, List.map_map]
      congr 1
      · simp
      · conv_lhs => rw [ihh]
        refine List.map_congr_left ?_
        intro a _
        have hsa : st2.startAt = st.startAt + page_size := by rw [hst2]
        simp only [Function.comp_apply, hsa, Nat.succ_eq_add_one]
        ring
    · simp [fetch_all_loop, hstep, List.range_succ]

/-- Peeling the first element off an arithmetic-progression range map. -/
lemma range_map_mul_shift (m ps j : Nat) :
    (List.range (m + 1)).map (fun i => (j + i) * ps)
      = j * ps :: (List.range m).map (fun i => (j + 1 + i) * ps) := by
  rw [List.range_succ_eq_map, List.map_cons, List.map_map]
  have hfun : ((fun i => (j + i) * ps) ∘ Nat.succ) = fun i => (j + 1 + i) * ps := by
    funext a
    simp only [Function.comp_apply, Nat.succ_eq_add_one]
    ring
  rw [hfun]
  simp

/-- The variant of `range_map_mul_shift` starting from offset zero. -/
lemma range_map_mul_zero (m ps : Nat) :
    (List.range (m + 1)).map (fun i => i * ps)
      = 0 :: (List.range m).map (fun i => (1 + i) * ps) := by
  rw [List.range_succ_eq_map, List.map_cons, List.map_map]
  have hfun : ((fun i => i * ps) ∘ Nat.succ) = fun i => (1 + i) * ps := by
    funext a
    simp only [Function.comp_apply, Nat.succ_eq_add_one]
    ring
  rw [hfun]
  simp

/-- Scanning states with a recorded total, a clear restart flag and offsets
that can never trigger the restart branch walk forward one page size at a
time and finish exactly when the offset passes the recorded total. -/
lemma fetch_all_loop_walk (oracle : Nat → Page) (page_size : Nat) (overscan : Bool)
    (T : Nat) (hps : 0 < page_size)
    (hquiet : ∀ m, (overscan && ((oracle m).total != T)) = false) :
    ∀ fuel j k cnt seen, j * page_size ≤ T → T / page_size + 1 - j ≤ fuel →
      (fetch_all_loop oracle page_size 0 overscan fuel k
          ⟨j * page_size, cnt, seen, some T, false⟩).finished = true ∧
      (fetch_all_loop oracle page_size 0 overscan fuel k
          ⟨j * page_size, cnt, seen, some T, false⟩).offsets
        = (List.range (T / page_size + 1 - j)).map (fun i => (j + i) * page_size) := by
  intro fuel
  induction fuel with
  | zero =>
    intro j k cnt seen hj hfuel
    have hjle : j ≤ T / page_size := (Nat.le_div_iff_mul_le hps).mpr hj
    omega
  | succ fuel ih =>
    intro j k cnt seen hj hfuel
    have hjle : j ≤ T / page_size := (Nat.le_div_iff_mul_le hps).mpr hj
    have hz := (process_page_zero (oracle k).records seen cnt).1
    have hkta : known_total_after ⟨j * page_size, cnt, seen, some T, false⟩ (oracle k) = T := rfl
    have hfra : force_restart_after overscan ⟨j * page_size, cnt, seen, some T, false⟩
        (oracle k) = false := by
      unfold force_restart_after
      simp [hquiet k]
    rcases le_or_lt (j * page_size + page_size) T with hcont | hstop
    · -- the next offset is still within the total: one more page is fetched
      have hnext : fetch_step page_size 0 overscan ⟨j * page_size, cnt, seen, some T, false⟩
          (oracle k) = StepOut.next ⟨j * page_size + page_size,
            (process_page 0 (oracle k).records seen cnt).cnt,
            (process_page 0 (oracle k).records seen cnt).seen, some T, false⟩ := by
        unfold fetch_step
        rcases hpp : process_page 0 (oracle k).records seen cnt with ⟨ys, s2, c2, h2⟩
        rw [hpp] at hz
        simp only at hz
        simp only [hz, hkta, hfra, if_neg (by omega : ¬ T < j * page_size + page_size),
          if_neg (by simp : ¬ False)]
        simp [hpp]
      have hmul : j * page_size + page_size = (j + 1) * page_size := by ring
      have hj1 : (j + 1) * page_size ≤ T := by omega
      have hj1le : j + 1 ≤ T / page_size := (Nat.le_div_iff_mul_le hps).mpr hj1
      have ihh := ih (j + 1) (k + 1)
        (process_page 0 (oracle k).records seen cnt).cnt
        (process_page 0 (oracle k).records seen cnt).seen hj1 (by omega)
      rcases hrun : fetch_all_loop oracle page_size 0 overscan fuel (k + 1)
          ⟨(j + 1) * page_size, (process_page 0 (oracle k).records seen cnt).cnt,
            (process_page 0 (oracle k).records seen cnt).seen, some T, false⟩
        with ⟨ys2, offs2, fin2⟩
      rw [hrun] at ihh
      simp only at ihh
      simp only [fetch_all_loop, hnext, hmul, hrun]
      refine ⟨ihh.1, ?_⟩
      have hrange : T / page_size + 1 - j = (T / page_size - j) + 1 := by omega
      have hrange2 : T / page_size + 1 - (j + 1) = T / page_size - j := by omega
      rw [ihh.2, hrange2, hrange, range_map_mul_shift]
    · -- the offset passes the total: the run finishes here
      have hdone : fetch_step page_size 0 overscan ⟨j * page_size, cnt, seen, some T, false⟩
          (oracle k) = StepOut.stop := by
        unfold fetch_step
        rcases hpp : process_page 0 (oracle k).records seen cnt with ⟨ys, s2, c2, h2⟩
        rw [hpp] at hz
        simp only at hz
        simp [hz, hkta, hfra, hstop]
      have hdiv : T / page_size = j := by
        refine Nat.div_eq_of_lt_le ?_ ?_
        · exact hj
        · calc T < j * page_size + page_size := hstop
            _ = (j + 1) * page_size := by ring
      simp [fetch_all_loop, hdone, hdiv, List.range_succ]

/-- A full unlimited run whose pages can never raise the restart flag
finishes within `total / page_size + 1` page requests, made exactly at
offsets `0, page_size, 2 * page_size, ...` up to the total reported by the
first page. -/
lemma fetch_all_walk (oracle : Nat → Page) (page_size : Nat) (overscan : Bool)
    (hps : 0 < page_size)
    (hquiet : ∀ m, (overscan && ((oracle m).total != (oracle 0).total)) = false)
    (fuel : Nat) (hfuel : (oracle 0).total / page_size + 1 ≤ fuel) :
    (fetch_all oracle page_size 0 overscan fuel).finished = true ∧
    (fetch_all oracle page_size 0 overscan fuel).offsets
      = (List.range ((oracle 0).total / page_size + 1)).map (fun i => i * page_size) := by
  rcases fuel with _ | fuel
  · exact absurd hfuel (Nat.not_succ_le_zero _)
  have hz := (process_page_zero (oracle 0).records ([] : List Nat) 0).1
  have hkta : known_total_after ⟨0, 0, [], none, false⟩ (oracle 0) = (oracle 0).total := rfl
  have hfra : force_restart_after overscan ⟨0, 0, [], none, false⟩ (oracle 0) = false := rfl
  rcases le_or_lt page_size (oracle 0).total with hcont | hstop
  · have hnext : fetch_step page_size 0 overscan ⟨0, 0, [], none, false⟩ (oracle 0)
        = StepOut.next ⟨0 + page_size,
            (process_page 0 (oracle 0).records [] 0).cnt,
            (process_page 0 (oracle 0).records [] 0).seen,
            some (oracle 0).total, false⟩ := by
      unfold fetch_step
      rcases hpp : process_page 0 (oracle 0).records ([] : List Nat) 0 with ⟨ys, s2, c2, h2⟩
      rw [hpp] at hz
      simp only at hz
      simp only [hz, hkta, hfra, if_neg (by omega : ¬ (oracle 0).total < 0 + page_size),
        if_neg (by simp : ¬ False)]
      simp [hpp]
    have hone : (0 : Nat) + page_size = 1 * page_size := by ring
    have h1le : 1 * page_size ≤ (oracle 0).total := by omega
    have ihh := fetch_all_loop_walk oracle page_size overscan (oracle 0).total hps hquiet fuel
      1 1 (process_page 0 (oracle 0).records [] 0).cnt
      (process_page 0 (oracle 0).records [] 0).seen h1le
      (by rw [Nat.add_sub_cancel]; exact Nat.le_of_succ_le_succ hfuel)
    rcases hrun : fetch_all_loop oracle page_size 0 overscan fuel 1
        ⟨1 * page_size, (process_page 0 (oracle 0).records [] 0).cnt,
          (process_page 0 (oracle 0).records [] 0).seen, some (oracle 0).total, false⟩
      with ⟨ys2, offs2, fin2⟩
    rw [hrun] at ihh
    simp only at ihh
    simp only [fetch_all, fetch_all_loop, hnext, hone, hrun]
    refine ⟨ihh.1, ?_⟩
    have hrange : (oracle 0).total / page_size + 1 - 1 = (oracle 0).total / page_size :=
      Nat.add_sub_cancel _ 1
    rw [ihh.2, hrange, range_map_mul_zero]
  · have hdone : fetch_step page_size 0 overscan ⟨0, 0, [], none, false⟩ (oracle 0)
        = StepOut.stop := by
      unfold fetch_step
      rcases hpp : process_page 0 (oracle 0).records ([] : List Nat) 0 with ⟨ys, s2, c2, h2⟩
      rw [hpp] at hz
      simp only at hz
      simp [hz, hkta, hfra, hstop]
    have hdiv : (oracle 0).total / page_size = 0 := Nat.div_eq_of_lt hstop
    simp [fetch_all, fetch_all_loop, hdone, hdiv, List.range_succ]

/-- Oracle for the spec scenario of C6: page size 10, backing collection of
11 records, every page reports total 11. -/
def scenario11_oracle : Nat → Page :=
  fun k => if k = 0 then ⟨(List.range 10).map (fun i => ⟨i, 0⟩), 11⟩ else ⟨[⟨10, 0⟩], 11⟩

/-- Oracle used to instantiate the limit theorems: every page carries the
same three records. -/
def witness_oracle : Nat → Page :=
  fun _ => ⟨[⟨0, 0⟩, ⟨1, 0⟩, ⟨2, 0⟩], 2⟩

/-- Oracle whose k-th response carries the single fresh record k while
claiming two records exist; it exhibits page requests made after the limit
is reached. -/
def drifting_oracle : Nat → Page :=
  fun k => ⟨[⟨k, 0⟩], 2⟩

/-- C1: whatever pages the remote search returns (overlapping pages and
repeated passes after an overscan restart included), no two records yielded
within one `fetch_all` invocation share an identifier. -/
theorem fetch_all_never_yields_duplicate_id (oracle : Nat → Page)
    (page_size limit : Nat) (overscan : Bool) (fuel : Nat) :
    (((fetch_all oracle page_size limit overscan fuel).ys).map Issue.id).Nodup :=
  (fetch_all_loop_nodup oracle page_size limit overscan fuel 0 ⟨0, 0, [], none, false⟩).1

/-- C2: with a positive limit N, `fetch_all` yields exactly the first N
records of the unlimited run on the same pages, hence
min(N, number of distinct available identifiers) records in total — the
unlimited run yields each available identifier exactly once. -/
theorem fetch_all_limit_exact (oracle : Nat → Page) (page_size : Nat) (overscan : Bool)
    (N fuel : Nat) (hN : 0 < N) :
    (fetch_all oracle page_size N overscan fuel).ys
      = ((fetch_all oracle page_size 0 overscan fuel).ys).take N ∧
    ((fetch_all oracle page_size N overscan fuel).ys).length
      = min N ((fetch_all oracle page_size 0 overscan fuel).ys).length ∧
    (((fetch_all oracle page_size 0 overscan fuel).ys).map Issue.id).Nodup := by
  obtain ⟨hys, -⟩ := fetch_all_loop_limit oracle page_size overscan N hN fuel 0
    ⟨0, 0, [], none, false⟩ (by simp)
  refine ⟨hys, ?_, ?_⟩
  · have hlen := congrArg List.length hys
    simpa [fetch_all, List.length_take] using hlen
  · exact (fetch_all_loop_nodup oracle page_size 0 overscan fuel 0 ⟨0, 0, [], none, false⟩).1

/-- C2 witness: three distinct records available, limit 2. -/
theorem fetch_all_limit_exact_witness :
    (fetch_all witness_oracle 3 2 false 3).ys
      = ((fetch_all witness_oracle 3 0 false 3).ys).take 2 ∧
    ((fetch_all witness_oracle 3 2 false 3).ys).length
      = min 2 ((fetch_all witness_oracle 3 0 false 3).ys).length ∧
    (((fetch_all witness_oracle 3 0 false 3).ys).map Issue.id).Nodup :=
  fetch_all_limit_exact witness_oracle 3 false 2 3 (by decide)

/-- C3 counterexample: with limit 1 and single-record pages reporting total
2, the first (= Nth) record is already yielded during the first page
request (fuel 1 suffices to produce it), yet the completed run performs a
second `search_issues` call at offset 1 before returning. -/
theorem limit_reached_extra_call :
    (fetch_all drifting_oracle 1 1 false 1).ys = [⟨0, 0⟩] ∧
    (fetch_all drifting_oracle 1 1 false 5).ys = [⟨0, 0⟩] ∧
    (fetch_all drifting_oracle 1 1 false 5).offsets = [0, 1] ∧
    (fetch_all drifting_oracle 1 1 false 5).finished = true := by
  decide

/-- C3 (amended): after the Nth record is yielded no further record is
yielded, and the engine stops as soon as it encounters the next record
whose id is not in `issue_ids`; until then it may keep issuing page
requests, so its requests form a prefix of the unlimited walk's requests
rather than ending at the request that yielded the Nth record. -/
theorem fetch_all_limit_stops_at_next_fresh_record (oracle : Nat → Page)
    (page_size : Nat) (overscan : Bool) (N fuel : Nat) (hN : 0 < N) :
    (fetch_all oracle page_size N overscan fuel).ys
      = ((fetch_all oracle page_size 0 overscan fuel).ys).take N ∧
    ∃ rest, (fetch_all oracle page_size 0 overscan fuel).offsets
      = (fetch_all oracle page_size N overscan fuel).offsets ++ rest := by
  obtain ⟨hys, hpre⟩ := fetch_all_loop_limit oracle page_size overscan N hN fuel 0
    ⟨0, 0, [], none, false⟩ (by simp)
  exact ⟨hys, hpre⟩

/-- C3 amended witness: the drifting oracle with limit 1. -/
theorem fetch_all_limit_stops_at_next_fresh_record_witness :
    (fetch_all drifting_oracle 1 1 false 5).ys
      = ((fetch_all drifting_oracle 1 0 false 5).ys).take 1 ∧
    ∃ rest, (fetch_all drifting_oracle 1 0 false 5).offsets
      = (fetch_all drifting_oracle 1 1 false 5).offsets ++ rest :=
  fetch_all_limit_stops_at_next_fresh_record drifting_oracle 1 false 1 5 (by decide)

/-- C4: with overscan on, a page whose total differs from the recorded one
is still processed, and at the end of the walk the engine restarts at
offset 0 clearing `total` and `force_restart` but keeping `issue_ids`; a
mid-walk change only marks the restart as pending; when totals stay
constant no restart happens and the walk reaches the terminal state. -/
theorem overscan_restart_semantics :
    (∀ (page_size : Nat) (st : FetchState) (t : Nat) (page : Page),
      st.knownTotal = some t → page.total ≠ t → t < st.startAt + page_size →
      fetch_step page_size 0 true st page
        = StepOut.next ⟨0, (process_page 0 page.records st.seenIds st.itemCount).cnt,
            (process_page 0 page.records st.seenIds st.itemCount).seen, none, false⟩) ∧
    (∀ (limit : Nat) (recs : List Issue) (seen : List Nat) (cnt a : Nat), a ∈ seen →
      a ∈ (process_page limit recs seen cnt).seen) ∧
    (∀ (page_size : Nat) (st : FetchState) (t : Nat) (page : Page),
      st.knownTotal = some t → page.total ≠ t → st.startAt + page_size ≤ t →
      fetch_step page_size 0 true st page
        = StepOut.next ⟨st.startAt + page_size,
            (process_page 0 page.records st.seenIds st.itemCount).cnt,
            (process_page 0 page.records st.seenIds st.itemCount).seen, some t, true⟩) ∧
    (∀ (page_size : Nat) (st : FetchState) (t : Nat) (page : Page),
      st.knownTotal = some t → st.forceRestart = false → page.total = t →
      t < st.startAt + page_size →
      fetch_step page_size 0 true st page = StepOut.stop) ∧
    (∀ (oracle : Nat → Page) (page_size limit : Nat) (overscan : Bool) (fuel k : Nat)
      (st : FetchState), ∃ rest,
      (fetch_all_loop oracle page_size limit overscan (fuel + 1) k st).ys
        = (process_page limit (oracle k).records st.seenIds st.itemCount).ys ++ rest) ∧
    (∀ (oracle : Nat → Page) (page_size fuel T : Nat), (∀ k, (oracle k).total = T) →
      0 < page_size → T / page_size + 1 ≤ fuel →
      (fetch_all oracle page_size 0 true fuel).finished = true ∧
      (fetch_all oracle page_size 0 true fuel).offsets
        = (List.range (T / page_size + 1)).map (fun i => i * page_size)) := by
  refine ⟨?_, ?_, ?_, ?_, ?_, ?_⟩
  · intro page_size st t page hkt hne hlt
    have hz := (process_page_zero page.records st.seenIds st.itemCount).1
    have hkta : known_total_after st page = t := by unfold known_total_after; rw [hkt]
    have hfra : force_restart_after true st page = true := by
      unfold force_restart_after
      rw [hkt]
      simp [hne]
    unfold fetch_step
    rcases hpp : process_page 0 page.records st.seenIds st.itemCount with ⟨ys, s2, c2, h2⟩
    rw [hpp] at hz
    simp only at hz
    simp [hz, hkta, hfra, hlt, hpp]
  · intro limit recs seen cnt a ha
    exact process_page_seen_mono limit recs seen cnt a ha
  · intro page_size st t page hkt hne hle
    have hz := (process_page_zero page.records st.seenIds st.itemCount).1
    have hkta : known_total_after st page = t := by unfold known_total_after; rw [hkt]
    have hfra : force_restart_after true st page = true := by
      unfold force_restart_after
      rw [hkt]
      simp [hne]
    unfold fetch_step
    rcases hpp : process_page 0 page.records st.seenIds st.itemCount with ⟨ys, s2, c2, h2⟩
    rw [hpp] at hz
    simp only at hz
    simp [hz, hkta, hfra, hpp, if_neg (by omega : ¬ t < st.startAt + page_size)]
  · intro page_size st t page hkt hfr heq hlt
    have hz := (process_page_zero page.records st.seenIds st.itemCount).1
    have hkta : known_total_after st page = t := by unfold known_total_after; rw [hkt]
    have hfra : force_restart_after true st page = false := by
      unfold force_restart_after
      rw [hkt]
      simp [hfr, heq]
    unfold fetch_step
    rcases hpp : process_page 0 page.records st.seenIds st.itemCount with ⟨ys, s2, c2, h2⟩
    rw [hpp] at hz
    simp only at hz
    simp [hz, hkta, hfra, hlt]
  · intro oracle page_size limit overscan fuel k st
    rcases hstep : fetch_step page_size limit overscan st (oracle k) with st2 | _
    · rcases hrun : fetch_all_loop oracle page_size limit overscan fuel (k + 1) st2
        with ⟨ys2, offs2, fin2⟩
      exact ⟨ys2, by simp [fetch_all_loop, hstep, hrun]⟩
    · exact ⟨[], by simp [fetch_all_loop, hstep]⟩
  · intro oracle page_size fuel T hconst hps hfuel
    have h0 : (oracle 0).total = T := hconst 0
    have hquiet : ∀ m, (true && ((oracle m).total != (oracle 0).total)) = false := by
      intro m
      simp [hconst m, h0]
    have := fetch_all_walk oracle page_size true hps hquiet fuel (by rw [h0]; exact hfuel)
    rw [h0] at this
    exact this

/-- C4 witness: concrete instances of each conjunct — a restart triggered
by totals 10 then 11, the kept id set, a carried flag, a constant-total
stop, a processed page, and a constant-total terminal walk. -/
theorem overscan_restart_semantics_witness :
    (fetch_step 10 0 true ⟨10, 1, [5], some 10, false⟩ ⟨[⟨7, 0⟩], 11⟩
      = StepOut.next ⟨0, (process_page 0 [⟨7, 0⟩] [5] 1).cnt,
          (process_page 0 [⟨7, 0⟩] [5] 1).seen, none, false⟩) ∧
    ((5 : Nat) ∈ (process_page 0 [⟨7, 0⟩] [5] 1).seen) ∧
    (fetch_step 10 0 true ⟨0, 0, [], some 20, false⟩ ⟨[⟨1, 0⟩], 21⟩
      = StepOut.next ⟨0 + 10, (process_page 0 [⟨1, 0⟩] [] 0).cnt,
          (process_page 0 [⟨1, 0⟩] [] 0).seen, some 20, true⟩) ∧
    (fetch_step 10 0 true ⟨10, 0, [], some 15, false⟩ ⟨[⟨1, 0⟩], 15⟩ = StepOut.stop) ∧
    (∃ rest, (fetch_all_loop scenario11_oracle 10 0 false (2 + 1) 0 ⟨0, 0, [], none, false⟩).ys
      = (process_page 0 (scenario11_oracle 0).records [] 0).ys ++ rest) ∧
    ((fetch_all scenario11_oracle 10 0 true 3).finished = true ∧
      (fetch_all scenario11_oracle 10 0 true 3).offsets
        = (List.range (11 / 10 + 1)).map (fun i => i * 10)) :=
  ⟨overscan_restart_semantics.1 10 ⟨10, 1, [5], some 10, false⟩ 10 ⟨[⟨7, 0⟩], 11⟩ rfl
      (by decide) (by decide),
    overscan_restart_semantics.2.1 0 [⟨7, 0⟩] [5] 1 5 (by decide),
    overscan_restart_semantics.2.2.1 10 ⟨0, 0, [], some 20, false⟩ 20 ⟨[⟨1, 0⟩], 21⟩ rfl
      (by decide) (by decide),
    overscan_restart_semantics.2.2.2.1 10 ⟨10, 0, [], some 15, false⟩ 15 ⟨[⟨1, 0⟩], 15⟩ rfl
      rfl rfl (by decide),
    overscan_restart_semantics.2.2.2.2.1 scenario11_oracle 10 0 false 2 0 ⟨0, 0, [], none, false⟩,
    overscan_restart_semantics.2.2.2.2.2 scenario11_oracle 10 3 11
      (by intro k; cases k <;> rfl) (by decide) (by decide)⟩

/-- C5: with overscan off the walk never restarts — the i-th page request
is at offset i * page_size for every limit, fuel and server behaviour —
and with no limit the run finishes once the offset passes the total
reported by the first page, after total / page_size + 1 requests. -/
theorem no_overscan_never_restarts (oracle : Nat → Page) (page_size limit fuel : Nat) :
    ((fetch_all oracle page_size limit false fuel).offsets
      = (List.range (fetch_all oracle page_size limit false fuel).offsets.length).map
          (fun i => i * page_size)) ∧
    (0 < page_size → (oracle 0).total / page_size + 1 ≤ fuel →
      (fetch_all oracle page_size 0 false fuel).finished = true ∧
      (fetch_all oracle page_size 0 false fuel).offsets
        = (List.range ((oracle 0).total / page_size + 1)).map (fun i => i * page_size)) := by
  constructor
  · simpa using
      fetch_all_loop_no_overscan_offsets oracle page_size limit fuel 0 ⟨0, 0, [], none, false⟩ rfl
  · intro hps hfuel
    exact fetch_all_walk oracle page_size false hps (fun m => rfl) fuel hfuel

/-- C5 witness: the total-11 oracle with page size 10. -/
theorem no_overscan_never_restarts_witness :
    ((fetch_all scenario11_oracle 10 0 false 3).offsets
      = (List.range (fetch_all scenario11_oracle 10 0 false 3).offsets.length).map
          (fun i => i * 10)) ∧
    ((fetch_all scenario11_oracle 10 0 false 3).finished = true ∧
      (fetch_all scenario11_oracle 10 0 false 3).offsets
        = (List.range ((scenario11_oracle 0).total / 10 + 1)).map (fun i => i * 10)) :=
  ⟨(no_overscan_never_restarts scenario11_oracle 10 0 3).1,
    (no_overscan_never_restarts scenario11_oracle 10 0 3).2 (by decide) (by decide)⟩

/-- C6: page size 10, 11 records, constant total 11, overscan off, no
limit: exactly two page requests, at offsets 0 and 10, 11 distinct records
yielded, and the run terminates. -/
theorem scenario_total11_two_calls :
    (fetch_all scenario11_oracle 10 0 false 3).offsets = [0, 10] ∧
    ((fetch_all scenario11_oracle 10 0 false 3).ys).map Issue.id = List.range 11 ∧
    ((fetch_all scenario11_oracle 10 0 false 3).ys).length = 11 ∧
    (((fetch_all scenario11_oracle 10 0 false 3).ys).map Issue.id).Nodup ∧
    (fetch_all scenario11_oracle 10 0 false 3).finished = true := by
  decide

/-! Embedding of `errors.py` and the single-entity lookups of
`issues_api.py` and `users_api.py`.  Python's substring test `needle in
hay` is `has_sub`; the two anchored regex discriminators match a literal
prefix, then any run of non-newline characters, then a literal infix. -/

/-- Test whether `needle` is a prefix of `hay` (character lists). -/
def leads_with : List Char → List Char → Bool
  | [], _ => true
  | _ :: _, [] => false
  | a :: as, b :: bs => a == b && leads_with as bs

/-- Python's substring containment `needle in hay` on character lists. -/
def has_sub (needle : List Char) : List Char → Bool
  | [] => leads_with needle []
  | c :: t => leads_with needle (c :: t) || has_sub needle t

/-- Python's substring containment `needle in hay` on strings. -/
def py_in (needle hay : String) : Bool :=
  has_sub needle.data hay.data

/-- Continuation of an anchored `pre(.*)suf` regex match: somewhere after a
run of non-newline characters the literal `suf` begins. -/
def mid_search (suf : List Char) : List Char → Bool
  | [] => leads_with suf []
  | c :: t => leads_with suf (c :: t) || (c != Char.ofNat 10 && mid_search suf t)

/-- `re.match` of the pattern `pre(.*)suf` against `text`: the match is
anchored at the start and `.` does not cross newlines. -/
def py_match_mid (pre suf text : String) : Bool :=
  if leads_with pre.data text.data then mid_search suf.data (text.data.drop pre.data.length)
  else false

/-- A remote error carrying the server's human-readable message text. -/
structure JIRAError where
  text : String
deriving DecidableEq

/-- Discriminator for the lookup-by-key absence condition
(`errors.is_issue_not_found_error`). -/
def is_issue_not_found_error (err : JIRAError) : Bool :=
  py_in "An issue with key" err.text && py_in "does not exist" err.text

/-- Discriminator for the lookup-by-id absence condition
(`errors.is_issue_does_not_exist_error`). -/
def is_issue_does_not_exist_error (err : JIRAError) : Bool :=
  py_in "Issue Does Not Exist" err.text

/-- Discriminator for the invalid-component error
(`errors.is_create_issue_component_error`). -/
def is_create_issue_component_error (err : JIRAError) : Bool :=
  py_match_mid "Component name \x27" "\x27 is not valid" err.text

/-- Discriminator for the nonexistent-user error
(`errors.is_create_issue_user_not_exist_error`). -/
def is_create_issue_user_not_exist_error (err : JIRAError) : Bool :=
  py_match_mid "User \x27" "\x27 does not exist" err.text

/-- `JiraIssuesAPI.get_issue_by_issue_key` with the remote single-result
search abstracted as its outcome (a page of at most one issue, or a
`JIRAError`); the domain aligner is not supplied.  The recognized
not-found error becomes `none`; other errors re-raise. -/
def get_issue_by_issue_key (search : Except JIRAError (List Issue)) :
    Except JIRAError (Option Issue) :=
  match search with
  | Except.ok res => Except.ok res.head?
  | Except.error err =>
    if is_issue_not_found_error err then Except.ok none else Except.error err

/-- `JiraIssuesAPI.get_issue_by_id` with the remote fetch-by-id abstracted
as its outcome; the recognized does-not-exist error becomes `none`, other
errors re-raise. -/
def get_issue_by_id (fetch : Except JIRAError Issue) : Except JIRAError (Option Issue) :=
  match fetch with
  | Except.ok issue => Except.ok (some issue)
  | Except.error err =>
    if is_issue_does_not_exist_error err then Except.ok none else Except.error err

/-- A Jira user as returned by the remote `client.user` endpoint. -/
structure User where
  key : String
deriving DecidableEq

/-- `JiraUsersAPI.get_user_by_key`: the remote call is abstracted as a
function from the key to its outcome; every `JIRAError` is caught and
turned into `None` (the code catches the bare exception class). -/
def get_user_by_key (client : String → Except JIRAError User) (key : String) :
    Except JIRAError (Option User) :=
  match client key with
  | Except.ok u => Except.ok (some u)
  | Except.error _ => Except.ok none

/-- C7: the two single-issue lookups convert exactly the errors matching
their not-found discriminator into `None` — message containing both
"An issue with key" and "does not exist" for lookup-by-key, message
containing "Issue Does Not Exist" for lookup-by-id — and re-raise every
other error unchanged. -/
theorem lookup_not_found_discrimination :
    (∀ err : JIRAError, py_in "An issue with key" err.text = true →
      py_in "does not exist" err.text = true →
      get_issue_by_issue_key (Except.error err) = Except.ok none) ∧
    (∀ err : JIRAError,
      (py_in "An issue with key" err.text && py_in "does not exist" err.text) = false →
      get_issue_by_issue_key (Except.error err) = Except.error err) ∧
    (∀ err : JIRAError, py_in "Issue Does Not Exist" err.text = true →
      get_issue_by_id (Except.error err) = Except.ok none) ∧
    (∀ err : JIRAError, py_in "Issue Does Not Exist" err.text = false →
      get_issue_by_id (Except.error err) = Except.error err) := by
  refine ⟨?_, ?_, ?_, ?_⟩
  · intro err h1 h2
    simp [get_issue_by_issue_key, is_issue_not_found_error, h1, h2]
  · intro err h
    simp [get_issue_by_issue_key, is_issue_not_found_error, h]
  · intro err h
    simp [get_issue_by_id, is_issue_does_not_exist_error, h]
  · intro err h
    simp [get_issue_by_id, is_issue_does_not_exist_error, h]

/-- C7 witness: the spec's sample message is absorbed, a transport error
re-raises, and likewise for lookup-by-id. -/
theorem lookup_not_found_discrimination_witness :
    get_issue_by_issue_key (Except.error ⟨"An issue with key PRODUCT-1 does not exist"⟩)
      = Except.ok none ∧
    get_issue_by_issue_key (Except.error ⟨"Internal Server Error"⟩)
      = Except.error ⟨"Internal Server Error"⟩ ∧
    get_issue_by_id (Except.error ⟨"Issue Does Not Exist"⟩) = Except.ok none ∧
    get_issue_by_id (Except.error ⟨"Internal Server Error"⟩)
      = Except.error ⟨"Internal Server Error"⟩ :=
  ⟨lookup_not_found_discrimination.1 ⟨"An issue with key PRODUCT-1 does not exist"⟩
      (by decide) (by decide),
    lookup_not_found_discrimination.2.1 ⟨"Internal Server Error"⟩ (by decide),
    lookup_not_found_discrimination.2.2.1 ⟨"Issue Does Not Exist"⟩ (by decide),
    lookup_not_found_discrimination.2.2.2 ⟨"Internal Server Error"⟩ (by decide)⟩

/-- C8 counterexample: a server error matching none of the known not-found
discriminators is still converted to `None` by the user lookup instead of
propagating — `get_user_by_key` catches every `JIRAError`. -/
theorem user_lookup_swallows_unrecognized_error :
    is_issue_not_found_error ⟨"Internal Server Error"⟩ = false ∧
    is_issue_does_not_exist_error ⟨"Internal Server Error"⟩ = false ∧
    is_create_issue_component_error ⟨"Internal Server Error"⟩ = false ∧
    is_create_issue_user_not_exist_error ⟨"Internal Server Error"⟩ = false ∧
    get_user_by_key (fun _ => Except.error ⟨"Internal Server Error"⟩) "bob"
      = Except.ok none :=
  ⟨by decide, by decide, by decide, by decide, rfl⟩

/-- C8 (amended): the user lookup-by-key converts every remote error into
an absence result; no `JIRAError` ever propagates to the caller. -/
theorem get_user_by_key_swallows_all (client : String → Except JIRAError User)
    (key : String) (err : JIRAError) (h : client key = Except.error err) :
    get_user_by_key client key = Except.ok none := by
  unfold get_user_by_key
  rw [h]

/-- C8 amended witness: a concrete erroring client. -/
theorem get_user_by_key_swallows_all_witness :
    get_user_by_key (fun _ => Except.error ⟨"Some Transport Failure"⟩) "alice"
      = Except.ok none :=
  get_user_by_key_swallows_all (fun _ => Except.error ⟨"Some Transport Failure"⟩)
    "alice" ⟨"Some Transport Failure"⟩ rfl

/-! Embedding of `domain_alignment.py`. Python's `str.replace` on
character lists, driven by fuel so that it stays a structural recursion;
the wrapper supplies enough fuel for the whole string. -/

/-- One step of Python's `str.replace(old, new)`: with an empty `old`,
`new` is interleaved before every character and once at the end; otherwise
every non-overlapping occurrence of `old` is substituted left to right. -/
def py_replace_fuel (old new : List Char) : Nat → List Char → List Char
  | 0, s => s
  | fuel + 1, s =>
    match s with
    | [] => if old.isEmpty then new else []
    | c :: t =>
      if old.isEmpty then new ++ c :: py_replace_fuel old new fuel t
      else if leads_with old (c :: t) then
        new ++ py_replace_fuel old new fuel ((c :: t).drop old.length)
      else c :: py_replace_fuel old new fuel t

/-- Python's `s.replace(old, new)` on character lists. -/
def py_replace (old new s : List Char) : List Char :=
  py_replace_fuel old new (s.length + 1) s

/-- `DomainAligner._is_aligned`: some mapped-to host already occurs in the
URI. -/
def is_aligned (mappings : List (String × String)) (uri : String) : Bool :=
  mappings.any (fun m => py_in m.2 uri)

/-- `DomainAligner._get_aligned_uri`: substitute with the first mapping
whose source host occurs in the URI; when none does, keep the URI and
report the warning signal (the Boolean). -/
def get_aligned_uri : List (String × String) → String → String × Bool
  | [], uri => (uri, true)
  | (base, aligned) :: rest, uri =>
    if py_in base uri then (⟨py_replace base.data aligned.data uri.data⟩, false)
    else get_aligned_uri rest uri

/-- `DomainAligner.realign_api_domain` restricted to its effect on the
resource's self URL: the returned pair is the new URL and whether the
warning signal was emitted. -/
def realign_api_domain (mappings : List (String × String)) (uri : String) : String × Bool :=
  if is_aligned mappings uri then (uri, false) else get_aligned_uri mappings uri

/-- `DEFAULT_MAPPINGS` of `domain_alignment.py`, with the mapped-to hosts
taken from `enums.JiraEnvironment` minus their scheme. -/
def DEFAULT_MAPPINGS : List (String × String) :=
  [("jira-dev.example.com", "jirarest-dev.example.com"),
    ("jira-stage.example.com", "jirarest-stage.example.com"),
    ("jira.example.com", "jirarest.example.com")]

/-- A string leads with itself followed by anything. -/
lemma leads_with_self_append (x z : List Char) : leads_with x (x ++ z) = true := by
  induction x with
  | nil => rfl
  | cons a as ih => simp [leads_with, ih]

/-- A prefix occurrence is an occurrence. -/
lemma has_sub_of_leads_with (n h : List Char) (hl : leads_with n h = true) :
    has_sub n h = true := by
  cases h with
  | nil => simpa [has_sub] using hl
  | cons c t => simp [has_sub, hl]

/-- Occurrences survive prepending a character. -/
lemma has_sub_cons (n : List Char) (c : Char) (t : List Char) (h : has_sub n t = true) :
    has_sub n (c :: t) = true := by
  simp [has_sub, h]

/-- A list contains itself as a leading substring of any extension. -/
lemma has_sub_self_append (n z : List Char) : has_sub n (n ++ z) = true :=
  has_sub_of_leads_with _ _ (leads_with_self_append n z)

/-- Substituting an occurring pattern leaves at least one copy of the
replacement text in the result. -/
lemma has_sub_py_replace_fuel (old new : List Char) :
    ∀ fuel s, s.length < fuel → has_sub old s = true →
      has_sub new (py_replace_fuel old new fuel s) = true := by
  intro fuel
  induction fuel with
  | zero =>
    intro s hlen
    omega
  | succ fuel ih =>
    intro s hlen hsub
    by_cases hemp : old.isEmpty = true
    · cases s with
      | nil =>
        simpa [py_replace_fuel, hemp] using has_sub_self_append new []
      | cons c t =>
        simp only [py_replace_fuel, hemp, if_true]
        exact has_sub_self_append new (c :: py_replace_fuel old new fuel t)
    · cases s with
      | nil =>
        rcases old with _ | ⟨a, as⟩
        · simp at hemp
        · simp [has_sub, leads_with] at hsub
      | cons c t =>
        by_cases hlead : leads_with old (c :: t) = true
        · simp only [py_replace_fuel, hemp, hlead, if_true, if_false, Bool.false_eq_true]
          exact has_sub_self_append new _
        · have hlead' : leads_with old (c :: t) = false := by simpa using hlead
          have hrec : has_sub old t = true := by
            simpa [has_sub, hlead'] using hsub
          have hlen' : t.length < fuel := by
            simp only [List.length_cons] at hlen
            omega
          simp only [py_replace_fuel, hemp, hlead', if_false, Bool.false_eq_true]
          exact has_sub_cons new c _ (ih t hlen' hrec)

/-- When no source host occurs in the URI, alignment keeps the URI and
emits the warning. -/
lemma get_aligned_uri_no_match (mappings : List (String × String)) (uri : String)
    (h : ∀ p ∈ mappings, py_in p.1 uri = false) :
    get_aligned_uri mappings uri = (uri, true) := by
  induction mappings with
  | nil => rfl
  | cons p rest ih =>
    rcases p with ⟨base, aligned⟩
    have hb := h (base, aligned) (by simp)
    simp only at hb
    simp only [get_aligned_uri, hb, Bool.false_eq_true, if_false]
    exact ih (fun q hq => h q (by simp [hq]))

/-- When some source host occurs in the URI, the aligned URI contains the
corresponding mapped-to host, so it tests as already aligned. -/
lemma get_aligned_uri_match (mappings : List (String × String)) (uri : String)
    (h : ∃ p ∈ mappings, py_in p.1 uri = true) :
    is_aligned mappings (get_aligned_uri mappings uri).1 = true := by
  induction mappings with
  | nil => simp at h
  | cons p rest ih =>
    rcases p with ⟨base, aligned⟩
    by_cases hb : py_in base uri = true
    · have hcontain : py_in aligned
          (⟨py_replace base.data aligned.data uri.data⟩ : String) = true := by
        unfold py_in py_replace
        exact has_sub_py_replace_fuel base.data aligned.data (uri.data.length + 1) uri.data
          (by omega) hb
      simp only [get_aligned_uri, hb, if_true]
      simp [is_aligned, hcontain]
    · have hb' : py_in base uri = false := by simpa using hb
      obtain ⟨q, hq, hqin⟩ := h
      have hq' : q ∈ rest := by
        rcases List.mem_cons.mp hq with rfl | hq2
        · simp only at hqin
          rw [hqin] at hb'
          cases hb'
        · exact hq2
      have hrest := ih ⟨q, hq', hqin⟩
      simp only [get_aligned_uri, hb', Bool.false_eq_true, if_false]
      simp only [is_aligned, List.any_cons] at hrest ⊢
      simp [hrest]

/-- C9: realignment is idempotent on the self URL — realigning a realigned
URL changes nothing — a URL that already contains a mapped-to host is
returned unmodified with no warning, and a URL no mapping applies to is
kept with only the warning emitted. -/
theorem realign_api_domain_idempotent :
    (∀ (mappings : List (String × String)) (uri : String),
      (realign_api_domain mappings (realign_api_domain mappings uri).1).1
        = (realign_api_domain mappings uri).1) ∧
    (∀ (mappings : List (String × String)) (uri : String), is_aligned mappings uri = true →
      realign_api_domain mappings uri = (uri, false)) ∧
    (∀ (mappings : List (String × String)) (uri : String), is_aligned mappings uri = false →
      (∀ p ∈ mappings, py_in p.1 uri = false) →
      realign_api_domain mappings uri = (uri, true)) := by
  have haligned : ∀ (mappings : List (String × String)) (uri : String),
      is_aligned mappings uri = true → realign_api_domain mappings uri = (uri, false) := by
    intro m u h
    simp [realign_api_domain, h]
  have hnomap : ∀ (mappings : List (String × String)) (uri : String),
      is_aligned mappings uri = false → (∀ p ∈ mappings, py_in p.1 uri = false) →
      realign_api_domain mappings uri = (uri, true) := by
    intro m u h hall
    simp [realign_api_domain, h, get_aligned_uri_no_match m u hall]
  refine ⟨?_, haligned, hnomap⟩
  intro mappings uri
  by_cases hal : is_aligned mappings uri = true
  · simp [haligned mappings uri hal]
  · have hal' : is_aligned mappings uri = false := by simpa using hal
    by_cases hex : ∃ p ∈ mappings, py_in p.1 uri = true
    · have h2 := get_aligned_uri_match mappings uri hex
      have h1 : realign_api_domain mappings uri = get_aligned_uri mappings uri := by
        simp [realign_api_domain, hal']
      rw [h1]
      simp [haligned mappings (get_aligned_uri mappings uri).1 h2]
    · push_neg at hex
      have hall : ∀ p ∈ mappings, py_in p.1 uri = false := by
        intro p hp
        simpa using hex p hp
      simp [hnomap mappings uri hal' hall]

/-- C9 witness: with the default mappings, an already canonical URL is a
warning-free no-op and an unmappable URL keeps its value with the
warning. -/
theorem realign_api_domain_idempotent_witness :
    realign_api_domain DEFAULT_MAPPINGS "https://jirarest.example.com/rest/api/2/issue/1"
      = ("https://jirarest.example.com/rest/api/2/issue/1", false) ∧
    realign_api_domain DEFAULT_MAPPINGS "https://other.example.net/x"
      = ("https://other.example.net/x", true) :=
  ⟨realign_api_domain_idempotent.2.1 DEFAULT_MAPPINGS
      "https://jirarest.example.com/rest/api/2/issue/1" (by decide),
    realign_api_domain_idempotent.2.2 DEFAULT_MAPPINGS "https://other.example.net/x"
      (by decide) (by decide)⟩

/-! Embedding of `credentials.py`.  The process environment and the
filesystem are explicit inputs: `env` maps a variable name to its value
when set, `fs` maps a path to the file's raw content when the file exists
(`os.path.exists` is `(fs p).isSome`; reading a missing path raises, which
the `Except` propagates). -/

/-- The three remote environments of `enums.JiraEnvironment`. -/
inductive JiraEnvironment where
  | Dev
  | Staging
  | Prod
deriving DecidableEq

/-- A loaded credentials object; the source's `alias` field is `label`
here. -/
structure Credentials where
  username : String
  password : String
  label : String
deriving DecidableEq

/-- Python's `str.strip()`: whitespace removed from both ends. -/
def py_strip (s : String) : String :=
  ⟨((s.data.dropWhile Char.isWhitespace).reverse.dropWhile Char.isWhitespace).reverse⟩

/-- Python truthiness of `os.environ.get(name)`: false for an unset
variable and for the empty string. -/
def truthy : Option String → Bool
  | none => false
  | some s => !(s == "")

/-- `CredentialsProvider._read_file`: read and strip a file, raising when
the path does not exist. -/
def read_file (fs : String → Option String) (path : String) : Except Unit String :=
  match fs path with
  | some content => Except.ok (py_strip content)
  | none => Except.error ()

/-- `CredentialsProvider._load_from_files`. -/
def load_from_files (fs : String → Option String) (username_path password_path label : String) :
    Except Unit Credentials :=
  match read_file fs username_path with
  | Except.error e => Except.error e
  | Except.ok u =>
    match read_file fs password_path with
    | Except.error e => Except.error e
    | Except.ok p => Except.ok ⟨u, p, label⟩

/-- `CredentialsProvider.PROD_USER_PATH`. -/
def PROD_USER_PATH : String := "/srv/airflow/jira_vm_username"

/-- `CredentialsProvider.PROD_PASSWD_PATH`. -/
def PROD_PASSWD_PATH : String := "/srv/airflow/jira_vm_password"

/-- `CredentialsProvider.DEV_USER_PATH` instantiated for a user. -/
def dev_user_path (user : String) : String := "/home/" ++ user ++ "/jira_user"

/-- `CredentialsProvider.DEV_PASSWD_PATH` instantiated for a user. -/
def dev_passwd_path (user : String) : String := "/home/" ++ user ++ "/jira_passwd"

/-- `CredentialsProvider._load_production`: read the fixed service-account
files, with no existence or emptiness check. -/
def load_production (fs : String → Option String) : Except Unit Credentials :=
  load_from_files fs PROD_USER_PATH PROD_PASSWD_PATH "Production"

/-- `CredentialsProvider._load_dev`: home-directory files, gated only on
their existence. -/
def load_dev (fs : String → Option String) (user : String) :
    Except Unit (Option Credentials) :=
  if (fs (dev_user_path user)).isNone then Except.ok none
  else if (fs (dev_passwd_path user)).isNone then Except.ok none
  else (load_from_files fs (dev_user_path user) (dev_passwd_path user)
    ("OneFlow, " ++ user)).map some

/-- `CredentialsProvider._load_env`: raw credentials from environment
variables, gated on their truthiness. -/
def load_env (env : String → Option String) : Option Credentials :=
  if truthy (env "ENV_JIRA_USER") = false then none
  else if truthy (env "ENV_JIRA_PASS") = false then none
  else some ⟨(env "ENV_JIRA_USER").getD "", (env "ENV_JIRA_PASS").getD "", "Local Env Vars"⟩

/-- `CredentialsProvider._load_local_dev`: credential files at paths given
by environment variables; the variables are gated on truthiness, the files
are read unconditionally. -/
def load_local_dev (env fs : String → Option String) : Except Unit (Option Credentials) :=
  if truthy (env "LOCAL_JIRA_USER") = false then Except.ok none
  else if truthy (env "LOCAL_JIRA_PASS") = false then Except.ok none
  else (load_from_files fs ((env "LOCAL_JIRA_USER").getD "") ((env "LOCAL_JIRA_PASS").getD "")
    "Local Cred Files").map some

/-- `CredentialsProvider.load_credentials`: in the Prod environment the
fixed service-account files are loaded directly; otherwise the local-file,
environment-variable and home-directory layers are tried in that order. -/
def load_credentials (envr : JiraEnvironment) (env fs : String → Option String)
    (user : String) : Except Unit (Option Credentials) :=
  if envr = JiraEnvironment.Prod then (load_production fs).map some
  else
    match load_local_dev env fs with
    | Except.error e => Except.error e
    | Except.ok (some c) => Except.ok (some c)
    | Except.ok none =>
      match load_env env with
      | some c => Except.ok (some c)
      | none =>
        match load_dev fs user with
        | Except.error e => Except.error e
        | Except.ok (some c) => Except.ok (some c)
        | Except.ok none => Except.ok none

/-- Keep a layer's outcome only when both identity and secret are
non-empty, as the specification's resolution rule demands. -/
def nonempty_creds : Option Credentials → Option Credentials
  | some c => if c.username != "" && c.password != "" then some c else none
  | none => none

/-- Collapse a fallible layer to its yielded credentials. -/
def layer_outcome : Except Unit (Option Credentials) → Option Credentials
  | Except.ok c => c
  | Except.error _ => none

/-- The resolution order claimed by the specification, stated in its own
words: environment-variable-specified local files, then raw environment
variables, then per-user home-directory files, then (in production mode
only) the fixed service-account files; the first layer yielding both a
non-empty identity and a non-empty secret wins. -/
def load_credentials_spec (envr : JiraEnvironment) (env fs : String → Option String)
    (user : String) : Option Credentials :=
  match nonempty_creds (layer_outcome (load_local_dev env fs)) with
  | some c => some c
  | none =>
    match nonempty_creds (load_env env) with
    | some c => some c
    | none =>
      match nonempty_creds (layer_outcome (load_dev fs user)) with
      | some c => some c
      | none =>
        if envr = JiraEnvironment.Prod then
          nonempty_creds (layer_outcome ((load_production fs).map some))
        else none

/-- Environment for the C10 counterexample: only the local credential file
paths are set. -/
def cex_env : String → Option String :=
  fun k => if k = "LOCAL_JIRA_USER" then some "/l/u"
    else if k = "LOCAL_JIRA_PASS" then some "/l/p" else none

/-- Filesystem for the C10 counterexample: the local credential files and
the production service-account files both exist, with different
contents. -/
def cex_fs : String → Option String :=
  fun p => if p = "/l/u" then some "alice"
    else if p = "/l/p" then some "pw"
    else if p = "/srv/airflow/jira_vm_username" then some "svc"
    else if p = "/srv/airflow/jira_vm_password" then some "svcpw" else none

/-- C10 counterexample: in the Prod environment the code loads the
service-account files directly even though the environment-variable layer
is available and yields non-empty credentials, which the claimed
resolution order would return first. -/
theorem load_credentials_prod_bypasses_layers :
    load_credentials JiraEnvironment.Prod cex_env cex_fs "bob"
      = Except.ok (some ⟨"svc", "svcpw", "Production"⟩) ∧
    load_credentials_spec JiraEnvironment.Prod cex_env cex_fs "bob"
      = some ⟨"alice", "pw", "Local Cred Files"⟩ ∧
    (⟨"svc", "svcpw", "Production"⟩ : Credentials) ≠ ⟨"alice", "pw", "Local Cred Files"⟩ :=
  ⟨rfl, rfl, by decide⟩

/-- C10 (amended): in the Prod environment `load_credentials` reads the
fixed service-account files directly, bypassing every other layer and
checking nothing; otherwise it tries environment-variable-specified local
files, then raw environment variables, then per-user home-directory files,
each gated by its own condition (truthy path variables, truthy value
variables, existing files) and not by non-emptiness of the loaded
credentials, returning the first layer's credentials or an absence. -/
theorem load_credentials_layering :
    (∀ (env fs : String → Option String) (user cu cp : String),
      fs PROD_USER_PATH = some cu → fs PROD_PASSWD_PATH = some cp →
      load_credentials JiraEnvironment.Prod env fs user
        = Except.ok (some ⟨py_strip cu, py_strip cp, "Production"⟩)) ∧
    (∀ (e : JiraEnvironment) (env fs : String → Option String) (user pu pp cu cp : String),
      e ≠ JiraEnvironment.Prod →
      env "LOCAL_JIRA_USER" = some pu → pu ≠ "" →
      env "LOCAL_JIRA_PASS" = some pp → pp ≠ "" →
      fs pu = some cu → fs pp = some cp →
      load_credentials e env fs user
        = Except.ok (some ⟨py_strip cu, py_strip cp, "Local Cred Files"⟩)) ∧
    (∀ (e : JiraEnvironment) (env fs : String → Option String) (user vu vp : String),
      e ≠ JiraEnvironment.Prod →
      truthy (env "LOCAL_JIRA_USER") = false →
      env "ENV_JIRA_USER" = some vu → vu ≠ "" →
      env "ENV_JIRA_PASS" = some vp → vp ≠ "" →
      load_credentials e env fs user = Except.ok (some ⟨vu, vp, "Local Env Vars"⟩)) ∧
    (∀ (e : JiraEnvironment) (env fs : String → Option String) (user cu cp : String),
      e ≠ JiraEnvironment.Prod →
      truthy (env "LOCAL_JIRA_USER") = false →
      truthy (env "ENV_JIRA_USER") = false →
      fs (dev_user_path user) = some cu → fs (dev_passwd_path user) = some cp →
      load_credentials e env fs user
        = Except.ok (some ⟨py_strip cu, py_strip cp, "OneFlow, " ++ user⟩)) ∧
    (∀ (e : JiraEnvironment) (env fs : String → Option String) (user : String),
      e ≠ JiraEnvironment.Prod →
      truthy (env "LOCAL_JIRA_USER") = false →
      truthy (env "ENV_JIRA_USER") = false →
      fs (dev_user_path user) = none →
      load_credentials e env fs user = Except.ok none) := by
  have htruthy : ∀ s : String, s ≠ "" → truthy (some s) = true := by
    intro s h
    simp [truthy, h]
  refine ⟨?_, ?_, ?_, ?_, ?_⟩
  · intro env fs user cu cp h1 h2
    simp [load_credentials, load_production, load_from_files, read_file, h1, h2, Except.map]
  · intro e env fs user pu pp cu cp he hu hpu hp hpp hfu hfp
    simp [load_credentials, he, load_local_dev, hu, hp, htruthy pu hpu, htruthy pp hpp,
      load_from_files, read_file, hfu, hfp, Except.map]
  · intro e env fs user vu vp he hl hu hvu hp hvp
    simp [load_credentials, he, load_local_dev, hl, load_env, hu, hp,
      htruthy vu hvu, htruthy vp hvp]
  · intro e env fs user cu cp he hl hv hfu hfp
    simp [load_credentials, he, load_local_dev, hl, load_env, hv, load_dev, hfu, hfp,
      load_from_files, read_file, Except.map]
  · intro e env fs user he hl hv hfu
    simp [load_credentials, he, load_local_dev, hl, load_env, hv, load_dev, hfu]

/-- Environment with only the raw credential variables set. -/
def envvars_env : String → Option String :=
  fun k => if k = "ENV_JIRA_USER" then some "u1"
    else if k = "ENV_JIRA_PASS" then some "p1" else none

/-- Environment with nothing set. -/
def empty_env : String → Option String := fun _ => none

/-- Filesystem holding only bob's home-directory credential files. -/
def dev_fs : String → Option String :=
  fun p => if p = "/home/bob/jira_user" then some "du"
    else if p = "/home/bob/jira_passwd" then some "dp" else none

/-- Filesystem with no files. -/
def empty_fs : String → Option String := fun _ => none

/-- C10 amended witness: one concrete run per layer plus the absence
case. -/
theorem load_credentials_layering_witness :
    (load_credentials JiraEnvironment.Prod cex_env cex_fs "bob"
      = Except.ok (some ⟨py_strip "svc", py_strip "svcpw", "Production"⟩)) ∧
    (load_credentials JiraEnvironment.Dev cex_env cex_fs "bob"
      = Except.ok (some ⟨py_strip "alice", py_strip "pw", "Local Cred Files"⟩)) ∧
    (load_credentials JiraEnvironment.Dev envvars_env cex_fs "bob"
      = Except.ok (some ⟨"u1", "p1", "Local Env Vars"⟩)) ∧
    (load_credentials JiraEnvironment.Dev empty_env dev_fs "bob"
      = Except.ok (some ⟨py_strip "du", py_strip "dp", "OneFlow, " ++ "bob"⟩)) ∧
    (load_credentials JiraEnvironment.Dev empty_env empty_fs "bob" = Except.ok none) :=
  ⟨load_credentials_layering.1 cex_env cex_fs "bob" "svc" "svcpw" rfl rfl,
    load_credentials_layering.2.1 JiraEnvironment.Dev cex_env cex_fs "bob" "/l/u" "/l/p"
      "alice" "pw" (by decide) rfl (by decide) rfl (by decide) rfl rfl,
    load_credentials_layering.2.2.1 JiraEnvironment.Dev envvars_env cex_fs "bob" "u1" "p1"
      (by decide) rfl rfl (by decide) rfl (by decide),
    load_credentials_layering.2.2.2.1 JiraEnvironment.Dev empty_env dev_fs "bob" "du" "dp"
      (by decide) rfl rfl rfl rfl,
    load_credentials_layering.2.2.2.2 JiraEnvironment.Dev empty_env empty_fs "bob"
      (by decide) rfl rfl rfl⟩

end JiraClient
